import Mathlib

/-!
Verification of the force-directed graph layout core of the Alfred
repository (`src/components/graph/graph-core.ts` and
`src/components/graph/graph-view.tsx`).

JavaScript `number` arithmetic is modelled by the real numbers `ℝ`,
`Math.sqrt` by `Real.sqrt`, `Math.ceil` by `Nat.ceil`, and `Math.random()`
by an explicit stream of draw values passed as a parameter.  Node and link
ids (`string | number` in the source) are modelled by an inductive type
with the `String(·)` coercion made explicit.  JavaScript `Map` built from
an entry list (later entries override earlier ones) is modelled by an
association list searched from the right.
-/

namespace Alfred

/-- An id value, `string | number` in the source (`GraphNode.id` etc.).
Numeric ids are modelled as integers. -/
inductive NodeId where
  | str (s : String)
  | num (n : Int)
deriving DecidableEq

/-- JavaScript `String(id)` coercion of an id. -/
def NodeId.toStr : NodeId → String
  | .str s => s
  | .num n => toString n

/-- JavaScript falsiness of an id value (`!id` is `true` exactly for the
empty string and the number zero among our modelled ids). -/
def NodeId.falsy : NodeId → Bool
  | .str s => s = ""
  | .num n => n = 0

/-- `GraphNode` from `graph-core.ts`: id, optional label, optional property
map (the property map is modelled as a list of key/value pairs; claims only
ever compare it for equality or preservation). -/
structure GraphNode where
  id : NodeId
  label : Option String
  properties : List (String × String)
deriving DecidableEq

/-- `GraphLink` from `graph-core.ts` (`type` is called `relType` here since
`type` is a Lean keyword). -/
structure GraphLink where
  id : NodeId
  source : NodeId
  target : NodeId
  relType : Option String
  properties : List (String × String)
deriving DecidableEq

/-- `GraphResponse` from `graph-core.ts`. -/
structure GraphResponse where
  nodes : List GraphNode
  links : List GraphLink

/-- `SimNode` from `graph-core.ts`: a `GraphNode` extended with position and
velocity. -/
structure SimNode extends GraphNode where
  x : ℝ
  y : ℝ
  vx : ℝ
  vy : ℝ

/-- `ResolvedLink` from `graph-core.ts`. -/
structure ResolvedLink where
  link : GraphLink
  source : SimNode
  target : SimNode

-- Layout & simulation constants from `graph-core.ts`.

def WIDTH : ℝ := 960
def HEIGHT : ℝ := 540
def REPEL_STRENGTH : ℝ := 1500
def LINK_DISTANCE : ℝ := 220
def SPRING_STRENGTH : ℝ := 0.02
def CENTER_STRENGTH : ℝ := 0.005
def DAMPING : ℝ := 0.92
def DT : ℝ := 0.016
def MAX_VELOCITY : ℝ := 35
def BOUNDS_MARGIN : ℝ := 4

/-- Euclidean magnitude of a 2-vector, `Math.sqrt(x*x + y*y)`. -/
noncomputable def mag (x y : ℝ) : ℝ := Real.sqrt (x * x + y * y)

-- ---------------------------------------------------------------------------
-- Layout initializer (`createInitialNodes` in `graph-core.ts`)
-- ---------------------------------------------------------------------------

/-- JavaScript `Array.prototype.map` with the element index, as used by
`createInitialNodes` (`data.nodes.map((node, index) => ...)`). -/
def mapWithIndex (f : ℕ → α → β) : ℕ → List α → List β
  | _, [] => []
  | i, a :: as => f i a :: mapWithIndex f (i + 1) as

/-- `usableWidth = WIDTH - marginX * 2` with `marginX = 16`. -/
def usableWidth : ℝ := WIDTH - 16 * 2

/-- `usableHeight = HEIGHT - marginY * 2` with `marginY = 16`. -/
def usableHeight : ℝ := HEIGHT - 16 * 2

/-- `cols = Math.max(1, Math.ceil(Math.sqrt(count * aspect)))` where
`aspect = usableWidth / usableHeight`. -/
noncomputable def initCols (count : ℕ) : ℕ :=
  max 1 ⌈Real.sqrt ((count : ℝ) * (usableWidth / usableHeight))⌉₊

/-- `rows = Math.max(1, Math.ceil(count / cols))`. -/
noncomputable def initRows (count : ℕ) : ℕ :=
  max 1 ⌈(count : ℝ) / (initCols count : ℝ)⌉₊

/-- `cellWidth = cols > 1 ? usableWidth / (cols - 1) : 0`. -/
noncomputable def initCellWidth (count : ℕ) : ℝ :=
  if 1 < initCols count then usableWidth / ((initCols count - 1 : ℕ) : ℝ) else 0

/-- `cellHeight = rows > 1 ? usableHeight / (rows - 1) : 0`. -/
noncomputable def initCellHeight (count : ℕ) : ℝ :=
  if 1 < initRows count then usableHeight / ((initRows count - 1 : ℕ) : ℝ) else 0

/-- The body of `createInitialNodes`'s `data.nodes.map((node, index) => ...)`
callback: grid cell of the index, linear placement, random jitter of
`±10%` of the cell, zero velocity. -/
noncomputable def placeNode (count : ℕ) (rand : ℕ → ℝ × ℝ) (index : ℕ)
    (node : GraphNode) : SimNode :=
  let cols := initCols count
  let col := index % cols
  let row := index / cols
  let baseX := 16 + (col : ℝ) * initCellWidth count
  let baseY := 16 + (row : ℝ) * initCellHeight count
  let jitterX := initCellWidth count * 0.2 * ((rand index).1 - 0.5)
  let jitterY := initCellHeight count * 0.2 * ((rand index).2 - 0.5)
  { node with x := baseX + jitterX, y := baseY + jitterY, vx := 0, vy := 0 }

/-- `createInitialNodes` from `graph-core.ts`.  `rand i` supplies the two
`Math.random()` draws consumed for the node at index `i`; each draw lies in
`[0, 1)` for a faithful run. -/
noncomputable def createInitialNodes (data : GraphResponse) (rand : ℕ → ℝ × ℝ) :
    List SimNode :=
  if data.nodes.isEmpty then []
  else mapWithIndex (placeNode data.nodes.length rand) 0 data.nodes

-- ---------------------------------------------------------------------------
-- Node map and link resolution (`createNodeMap`, `resolveLinks`)
-- ---------------------------------------------------------------------------

/-- `createNodeMap` from `graph-core.ts`: the entry list of
`new Map(nodes.map((n) => [String(n.id), n]))`. -/
def createNodeMap (nodes : List SimNode) : List (String × SimNode) :=
  nodes.map (fun n => (n.id.toStr, n))

/-- `Map.get` on a map built from an entry list: with duplicate keys the
later entry wins, hence lookup on the reversed list. -/
def mapGet (m : List (String × SimNode)) (k : String) : Option SimNode :=
  m.reverse.lookup k

/-- `nodeMap.get(String(id))` — every node lookup in the core coerces the id
to a string first. -/
def lookupById (m : List (String × SimNode)) (i : NodeId) : Option SimNode :=
  mapGet m i.toStr

/-- The per-link body of `resolveLinks`: resolve both endpoints, yielding
`none` when either is missing. -/
def resolveOne (m : List (String × SimNode)) (link : GraphLink) :
    Option ResolvedLink :=
  match lookupById m link.source, lookupById m link.target with
  | some s, some t => some ⟨link, s, t⟩
  | _, _ => none

/-- `resolveLinks` from `graph-core.ts` (`.map(...).filter(Boolean)` is a
`filterMap`); a `null` data argument yields `[]`. -/
def resolveLinks (data : Option GraphResponse) (m : List (String × SimNode)) :
    List ResolvedLink :=
  match data with
  | none => []
  | some d => d.links.filterMap (resolveOne m)

-- ---------------------------------------------------------------------------
-- Pre-resolved simulation links (`useGraphSimulation` in `graph-view.tsx`)
-- ---------------------------------------------------------------------------

/-- The entry list of `indexById = new Map(data.nodes.map((node, index) =>
[String(node.id), index]))`. -/
def indexById (nodes : List GraphNode) : List (String × ℕ) :=
  mapWithIndex (fun index node => (node.id.toStr, index)) 0 nodes

/-- `indexById.get(String(id))`, with the later-entry-wins `Map` semantics. -/
def indexOfId (nodes : List GraphNode) (i : NodeId) : Option ℕ :=
  (indexById nodes).reverse.lookup i.toStr

/-- The pre-resolved index-pair link list built in `useGraphSimulation`:
links with a missing endpoint or with `sourceIndex === targetIndex` are
dropped. -/
def simLinks (data : GraphResponse) : List (ℕ × ℕ) :=
  data.links.filterMap (fun link =>
    match indexOfId data.nodes link.source, indexOfId data.nodes link.target with
    | some sourceIndex, some targetIndex =>
        if sourceIndex = targetIndex then none else some (sourceIndex, targetIndex)
    | _, _ => none)

-- ---------------------------------------------------------------------------
-- The simulation tick (`tick` in `useGraphSimulation`, `graph-view.tsx`)
-- ---------------------------------------------------------------------------

/-- The guard `node.id === draggingId` of the tick (strict JavaScript
equality; `draggingId` may be `null`, which equals no id). -/
def isDragged (dragging : Option NodeId) (n : SimNode) : Bool :=
  match dragging with
  | none => false
  | some d => n.id = d

/-- One iteration of the pairwise repulsion double loop (phase 1 of the
tick) for the pair of indices `ij`.  `nodeA`/`nodeB` are read from the
current array; a pinned side is skipped. -/
noncomputable def repelStep (dragging : Option NodeId) (ns : List SimNode)
    (ij : ℕ × ℕ) : List SimNode :=
  match ns[ij.1]?, ns[ij.2]? with
  | some nodeA, some nodeB =>
    let dx := nodeB.x - nodeA.x
    let dy := nodeB.y - nodeA.y
    let distSq := dx * dx + dy * dy + 0.01
    let force := REPEL_STRENGTH / distSq
    let invDist := 1 / Real.sqrt distSq
    let fx := force * (dx * invDist)
    let fy := force * (dy * invDist)
    let ns1 :=
      if isDragged dragging nodeA then ns
      else ns.set ij.1 { nodeA with vx := nodeA.vx - fx * DT, vy := nodeA.vy - fy * DT }
    if isDragged dragging nodeB then ns1
    else ns1.set ij.2 { nodeB with vx := nodeB.vx + fx * DT, vy := nodeB.vy + fy * DT }
  | _, _ => ns

/-- The loop order of `for (i...) for (j = i+1...)`: all pairs `(i, j)` with
`i < j < n`, `i` ascending, `j` ascending within each `i`. -/
def allPairs (n : ℕ) : List (ℕ × ℕ) :=
  (List.range n).flatMap (fun i => ((List.range n).drop (i + 1)).map (fun j => (i, j)))

/-- One iteration of the spring force loop (phase 2 of the tick) for a
pre-resolved index pair.  `dist` is `Math.sqrt(...) || 1`. -/
noncomputable def springStep (dragging : Option NodeId) (ns : List SimNode)
    (st : ℕ × ℕ) : List SimNode :=
  match ns[st.1]?, ns[st.2]? with
  | some source, some target =>
    let dx := target.x - source.x
    let dy := target.y - source.y
    let dist0 := Real.sqrt (dx * dx + dy * dy)
    let dist := if dist0 = 0 then 1 else dist0
    let displacement := dist - LINK_DISTANCE
    let force := SPRING_STRENGTH * displacement
    let invDist := 1 / dist
    let fx := force * (dx * invDist)
    let fy := force * (dy * invDist)
    let ns1 :=
      if isDragged dragging source then ns
      else ns.set st.1 { source with vx := source.vx + fx * DT, vy := source.vy + fy * DT }
    if isDragged dragging target then ns1
    else ns1.set st.2 { target with vx := target.vx - fx * DT, vy := target.vy - fy * DT }
  | _, _ => ns

/-- Phase 3 of the tick for a single node: a pinned node only has its
velocity damped; otherwise centering, damping, speed clamping, position
integration and bounds clamping, in that order. -/
noncomputable def centerStep (dragging : Option NodeId) (n : SimNode) : SimNode :=
  if isDragged dragging n then
    { n with vx := n.vx * DAMPING, vy := n.vy * DAMPING }
  else
    let dx := WIDTH / 2 - n.x
    let dy := HEIGHT / 2 - n.y
    let vx1 := n.vx + dx * CENTER_STRENGTH * DT
    let vy1 := n.vy + dy * CENTER_STRENGTH * DT
    let vx2 := vx1 * DAMPING
    let vy2 := vy1 * DAMPING
    let speedSq := vx2 * vx2 + vy2 * vy2
    let vx3 := if MAX_VELOCITY * MAX_VELOCITY < speedSq
      then vx2 * (MAX_VELOCITY / Real.sqrt speedSq) else vx2
    let vy3 := if MAX_VELOCITY * MAX_VELOCITY < speedSq
      then vy2 * (MAX_VELOCITY / Real.sqrt speedSq) else vy2
    { n with
      x := max BOUNDS_MARGIN (min (WIDTH - BOUNDS_MARGIN) (n.x + vx3)),
      y := max BOUNDS_MARGIN (min (HEIGHT - BOUNDS_MARGIN) (n.y + vy3)),
      vx := vx3, vy := vy3 }

/-- One simulation tick (`tick` in `useGraphSimulation`): the repulsion
double loop over the previous tick's array, then the spring loop over the
pre-resolved links, then the per-node centering/damping/clamping pass. -/
noncomputable def tick (links : List (ℕ × ℕ)) (dragging : Option NodeId)
    (ns : List SimNode) : List SimNode :=
  let afterRepel := (allPairs ns.length).foldl (repelStep dragging) ns
  let afterSpring := links.foldl (springStep dragging) afterRepel
  afterSpring.map (centerStep dragging)

/-- The state update of `handlePointerMove`: when a drag is active (and the
dragged id is not JavaScript-falsy, which the `if (!draggedIdRef.current)`
guard rejects), every node whose id strictly equals the dragged id has its
position overwritten by the pointer position and its velocity zeroed. -/
def applyPointer (dragging : Option NodeId) (px py : ℝ) (ns : List SimNode) :
    List SimNode :=
  match dragging with
  | none => ns
  | some d =>
      if d.falsy then ns
      else ns.map (fun n =>
        if n.id = d then { n with x := px, y := py, vx := 0, vy := 0 } else n)

-- ---------------------------------------------------------------------------
-- Spec-side tick phases (for claim C1)
-- ---------------------------------------------------------------------------

/-- Modelled from the claim's words: a repulsion impulse of magnitude
`REPEL_STRENGTH / (|d|² + 0.01)` along the unit pair vector `d / |d|`,
scaled by `DT`, opposite signs, skipping the pinned side. -/
noncomputable def claimedRepelStep (dragging : Option NodeId) (ns : List SimNode)
    (ij : ℕ × ℕ) : List SimNode :=
  match ns[ij.1]?, ns[ij.2]? with
  | some nodeA, some nodeB =>
    let dx := nodeB.x - nodeA.x
    let dy := nodeB.y - nodeA.y
    let lenSq := dx * dx + dy * dy
    let fx := REPEL_STRENGTH / (lenSq + 0.01) * (dx / Real.sqrt lenSq)
    let fy := REPEL_STRENGTH / (lenSq + 0.01) * (dy / Real.sqrt lenSq)
    let ns1 :=
      if isDragged dragging nodeA then ns
      else ns.set ij.1 { nodeA with vx := nodeA.vx - fx * DT, vy := nodeA.vy - fy * DT }
    if isDragged dragging nodeB then ns1
    else ns1.set ij.2 { nodeB with vx := nodeB.vx + fx * DT, vy := nodeB.vy + fy * DT }
  | _, _ => ns

/-- Modelled from the claim's words: a spring impulse
`SPRING_STRENGTH * (dist - LINK_DISTANCE)` along the unit link vector, with
`dist` guarded to 1 when zero, scaled by `DT`, opposing signs, skipping the
pinned side. -/
noncomputable def claimedSpringStep (dragging : Option NodeId) (ns : List SimNode)
    (st : ℕ × ℕ) : List SimNode :=
  match ns[st.1]?, ns[st.2]? with
  | some source, some target =>
    let dx := target.x - source.x
    let dy := target.y - source.y
    let dist0 := Real.sqrt (dx * dx + dy * dy)
    let dist := if dist0 = 0 then 1 else dist0
    let fx := SPRING_STRENGTH * (dist - LINK_DISTANCE) * (dx / dist)
    let fy := SPRING_STRENGTH * (dist - LINK_DISTANCE) * (dy / dist)
    let ns1 :=
      if isDragged dragging source then ns
      else ns.set st.1 { source with vx := source.vx + fx * DT, vy := source.vy + fy * DT }
    if isDragged dragging target then ns1
    else ns1.set st.2 { target with vx := target.vx - fx * DT, vy := target.vy - fy * DT }
  | _, _ => ns

/-- Modelled from the claim's words, phase 3: for every non-pinned node a
centering impulse `CENTER_STRENGTH * DT * (center - pos)`, then velocity
damping, speed clamping, position integration and bounds clamping.  The
claim describes nothing for a pinned node, so a pinned node is untouched. -/
noncomputable def claimedCenterStep (dragging : Option NodeId) (n : SimNode) :
    SimNode :=
  if isDragged dragging n then n
  else
    let vx1 := n.vx + CENTER_STRENGTH * DT * (WIDTH / 2 - n.x)
    let vy1 := n.vy + CENTER_STRENGTH * DT * (HEIGHT / 2 - n.y)
    let vx2 := vx1 * DAMPING
    let vy2 := vy1 * DAMPING
    let speedSq := vx2 * vx2 + vy2 * vy2
    let vx3 := if MAX_VELOCITY * MAX_VELOCITY < speedSq
      then vx2 * (MAX_VELOCITY / Real.sqrt speedSq) else vx2
    let vy3 := if MAX_VELOCITY * MAX_VELOCITY < speedSq
      then vy2 * (MAX_VELOCITY / Real.sqrt speedSq) else vy2
    { n with
      x := max BOUNDS_MARGIN (min (WIDTH - BOUNDS_MARGIN) (n.x + vx3)),
      y := max BOUNDS_MARGIN (min (HEIGHT - BOUNDS_MARGIN) (n.y + vy3)),
      vx := vx3, vy := vy3 }

/-- The tick as claim C1 literally describes it: the three claimed phases in
order, each consuming the previous phase's array. -/
noncomputable def claimedTick (links : List (ℕ × ℕ)) (dragging : Option NodeId)
    (ns : List SimNode) : List SimNode :=
  ((links.foldl (claimedSpringStep dragging)
    ((allPairs ns.length).foldl (claimedRepelStep dragging) ns))).map
    (claimedCenterStep dragging)

/-- Amended phase 1: the repulsion impulse has magnitude
`REPEL_STRENGTH / (|d|² + 0.01) * (|d| / sqrt (|d|² + 0.01))`, i.e. it lies
along the pair vector normalized by `sqrt (|d|² + 0.01)` rather than by
`|d|`. -/
noncomputable def amendedRepelStep (dragging : Option NodeId) (ns : List SimNode)
    (ij : ℕ × ℕ) : List SimNode :=
  match ns[ij.1]?, ns[ij.2]? with
  | some nodeA, some nodeB =>
    let dx := nodeB.x - nodeA.x
    let dy := nodeB.y - nodeA.y
    let distSq := dx * dx + dy * dy + 0.01
    let fx := REPEL_STRENGTH / distSq * (dx / Real.sqrt distSq)
    let fy := REPEL_STRENGTH / distSq * (dy / Real.sqrt distSq)
    let ns1 :=
      if isDragged dragging nodeA then ns
      else ns.set ij.1 { nodeA with vx := nodeA.vx - fx * DT, vy := nodeA.vy - fy * DT }
    if isDragged dragging nodeB then ns1
    else ns1.set ij.2 { nodeB with vx := nodeB.vx + fx * DT, vy := nodeB.vy + fy * DT }
  | _, _ => ns

/-- Amended phase 3: as claimed for non-pinned nodes, and a pinned node's
velocity is multiplied by `DAMPING` (nothing else happens to it). -/
noncomputable def amendedCenterStep (dragging : Option NodeId) (n : SimNode) :
    SimNode :=
  if isDragged dragging n then
    { n with vx := DAMPING * n.vx, vy := DAMPING * n.vy }
  else
    let vx1 := n.vx + CENTER_STRENGTH * DT * (WIDTH / 2 - n.x)
    let vy1 := n.vy + CENTER_STRENGTH * DT * (HEIGHT / 2 - n.y)
    let vx2 := vx1 * DAMPING
    let vy2 := vy1 * DAMPING
    let speedSq := vx2 * vx2 + vy2 * vy2
    let vx3 := if MAX_VELOCITY * MAX_VELOCITY < speedSq
      then vx2 * (MAX_VELOCITY / Real.sqrt speedSq) else vx2
    let vy3 := if MAX_VELOCITY * MAX_VELOCITY < speedSq
      then vy2 * (MAX_VELOCITY / Real.sqrt speedSq) else vy2
    { n with
      x := max BOUNDS_MARGIN (min (WIDTH - BOUNDS_MARGIN) (n.x + vx3)),
      y := max BOUNDS_MARGIN (min (HEIGHT - BOUNDS_MARGIN) (n.y + vy3)),
      vx := vx3, vy := vy3 }

/-- The repulsion phase of the amended claim. -/
noncomputable def amendedRepelPhase (dragging : Option NodeId)
    (ns : List SimNode) : List SimNode :=
  (allPairs ns.length).foldl (amendedRepelStep dragging) ns

/-- The spring phase of the amended claim (the claimed spring wording
already matches the code). -/
noncomputable def amendedSpringPhase (links : List (ℕ × ℕ))
    (dragging : Option NodeId) (ns : List SimNode) : List SimNode :=
  links.foldl (claimedSpringStep dragging) ns

/-- The centering/damping/clamping phase of the amended claim. -/
noncomputable def amendedCenterPhase (dragging : Option NodeId)
    (ns : List SimNode) : List SimNode :=
  ns.map (amendedCenterStep dragging)

-- ---------------------------------------------------------------------------
-- Magnitude lemmas
-- ---------------------------------------------------------------------------

lemma mag_eq_complexAbs (x y : ℝ) : mag x y = Complex.abs ⟨x, y⟩ := by
  rw [mag, Complex.abs_apply, Complex.normSq_mk]

lemma mag_nonneg (x y : ℝ) : 0 ≤ mag x y := Real.sqrt_nonneg _

lemma mag_le_of_sq_le {M x y : ℝ} (hM : 0 ≤ M) (h : x * x + y * y ≤ M * M) :
    mag x y ≤ M := by
  calc mag x y ≤ Real.sqrt (M * M) := Real.sqrt_le_sqrt h
  _ = M := by rw [show M * M = M ^ 2 by ring, Real.sqrt_sq hM]

lemma mag_mul (x y c : ℝ) : mag (x * c) (y * c) = mag x y * |c| := by
  rw [mag_eq_complexAbs, mag_eq_complexAbs]
  have h : ({ re := x * c, im := y * c } : ℂ) = ⟨x, y⟩ * ⟨c, 0⟩ := by
    apply Complex.ext <;> simp
  rw [h, map_mul]
  congr 1
  rw [Complex.abs_apply, Complex.normSq_mk,
    show c * c + 0 * 0 = c ^ 2 by ring, Real.sqrt_sq_eq_abs]

lemma mag_add_le (a c b d : ℝ) : mag (a + b) (c + d) ≤ mag a c + mag b d := by
  rw [mag_eq_complexAbs, mag_eq_complexAbs, mag_eq_complexAbs]
  have h : ({ re := a + b, im := c + d } : ℂ) = ⟨a, c⟩ + ⟨b, d⟩ := by
    apply Complex.ext <;> simp
  rw [h]
  exact Complex.abs.add_le _ _

lemma sq_le_of_mag_le {M x y : ℝ} (h : mag x y ≤ M) : x * x + y * y ≤ M * M := by
  rw [mag] at h
  have h0 : 0 ≤ x * x + y * y :=
    add_nonneg (mul_self_nonneg x) (mul_self_nonneg y)
  have hs : 0 ≤ Real.sqrt (x * x + y * y) := Real.sqrt_nonneg _
  have hsq : Real.sqrt (x * x + y * y) ^ 2 = x * x + y * y := Real.sq_sqrt h0
  nlinarith [h, hs, hsq]

-- ---------------------------------------------------------------------------
-- Frame relation for the repulsion and spring phases
-- ---------------------------------------------------------------------------

/-- What one step of phase 1 or phase 2 of the tick preserves: array length,
every entry's `GraphNode` data and position, and pinned entries entirely. -/
def Phase12Rel (dragging : Option NodeId) (ns ns' : List SimNode) : Prop :=
  ns'.length = ns.length ∧
  (∀ k : ℕ, (ns'[k]?).map SimNode.toGraphNode = (ns[k]?).map SimNode.toGraphNode) ∧
  (∀ k : ℕ, (ns'[k]?).map SimNode.x = (ns[k]?).map SimNode.x) ∧
  (∀ k : ℕ, (ns'[k]?).map SimNode.y = (ns[k]?).map SimNode.y) ∧
  (∀ (k : ℕ) (nk : SimNode),
    ns[k]? = some nk → isDragged dragging nk = true → ns'[k]? = some nk)

lemma phase12Rel_refl (dragging : Option NodeId) (ns : List SimNode) :
    Phase12Rel dragging ns ns :=
  ⟨rfl, fun _ => rfl, fun _ => rfl, fun _ => rfl, fun _ _ h _ => h⟩

lemma phase12Rel_trans {dragging : Option NodeId} {ns₁ ns₂ ns₃ : List SimNode}
    (h12 : Phase12Rel dragging ns₁ ns₂) (h23 : Phase12Rel dragging ns₂ ns₃) :
    Phase12Rel dragging ns₁ ns₃ := by
  obtain ⟨hl, hm, hx, hy, hd⟩ := h12
  obtain ⟨hl', hm', hx', hy', hd'⟩ := h23
  exact ⟨hl'.trans hl, fun k => (hm' k).trans (hm k), fun k => (hx' k).trans (hx k),
    fun k => (hy' k).trans (hy k),
    fun k nk h hdrag => hd' k nk (hd k nk h hdrag) hdrag⟩

lemma isDragged_congr {dragging : Option NodeId} {n m : SimNode}
    (h : n.id = m.id) : isDragged dragging n = isDragged dragging m := by
  cases dragging <;> simp [isDragged, h]

/-- Setting index `k` to a node that differs from the current entry only in
velocity, when the current entry is not pinned, is a `Phase12Rel` step. -/
lemma phase12Rel_set {dragging : Option NodeId} {ns : List SimNode} {k : ℕ}
    {n0 n1 : SimNode} (h0 : ns[k]? = some n0)
    (hmeta : n1.toGraphNode = n0.toGraphNode) (hx : n1.x = n0.x)
    (hy : n1.y = n0.y) (hdrag : isDragged dragging n0 = false) :
    Phase12Rel dragging ns (ns.set k n1) := by
  have hk : k < ns.length := by
    rw [List.getElem?_eq_some] at h0; exact h0.1
  refine ⟨List.length_set ns k n1, fun j => ?_, fun j => ?_, fun j => ?_,
    fun j nj hj hdragj => ?_⟩
  · rcases eq_or_ne k j with rfl | hne
    · rw [List.getElem?_set_self hk, h0]; simp [hmeta]
    · rw [List.getElem?_set_ne hne]
  · rcases eq_or_ne k j with rfl | hne
    · rw [List.getElem?_set_self hk, h0]; simp [hx]
    · rw [List.getElem?_set_ne hne]
  · rcases eq_or_ne k j with rfl | hne
    · rw [List.getElem?_set_self hk, h0]; simp [hy]
    · rw [List.getElem?_set_ne hne]
  · rcases eq_or_ne k j with rfl | hne
    · rw [h0] at hj
      cases hj
      rw [hdragj] at hdrag
      exact absurd hdrag (by simp)
    · rw [List.getElem?_set_ne hne]; exact hj

lemma id_eq_of_meta_eq {n m : SimNode} (h : n.toGraphNode = m.toGraphNode) :
    n.id = m.id := congrArg GraphNode.id h

/-- The common shape of `repelStep` and `springStep`: two guarded
velocity-only writes at indices `i` and `j`. -/
lemma phase12Rel_double (dragging : Option NodeId) (ns : List SimNode)
    (i j : ℕ) (a b fa fb : SimNode) (ha : ns[i]? = some a) (hb : ns[j]? = some b)
    (hfa : fa.toGraphNode = a.toGraphNode ∧ fa.x = a.x ∧ fa.y = a.y)
    (hfb : fb.toGraphNode = b.toGraphNode ∧ fb.x = b.x ∧ fb.y = b.y) :
    Phase12Rel dragging ns
      (if isDragged dragging b then (if isDragged dragging a then ns else ns.set i fa)
       else (if isDragged dragging a then ns else ns.set i fa).set j fb) := by
  by_cases hA : isDragged dragging a = true
  · rw [if_pos hA]
    by_cases hB : isDragged dragging b = true
    · rw [if_pos hB]; exact phase12Rel_refl _ _
    · rw [if_neg hB]
      exact phase12Rel_set hb hfb.1 hfb.2.1 hfb.2.2 (by simpa using hB)
  · rw [if_neg hA]
    have hA' : isDragged dragging a = false := by simpa using hA
    have hstep1 : Phase12Rel dragging ns (ns.set i fa) :=
      phase12Rel_set ha hfa.1 hfa.2.1 hfa.2.2 hA'
    by_cases hB : isDragged dragging b = true
    · rw [if_pos hB]; exact hstep1
    · rw [if_neg hB]
      have hB' : isDragged dragging b = false := by simpa using hB
      refine phase12Rel_trans hstep1 ?_
      rcases eq_or_ne i j with rfl | hne
      · have hi : i < ns.length := by
          rw [List.getElem?_eq_some] at ha; exact ha.1
        have hab : a = b := by rw [ha] at hb; exact Option.some.inj hb
        subst hab
        have h0 : (ns.set i fa)[i]? = some fa := by
          rw [List.getElem?_set_self (by simpa using hi)]
        refine phase12Rel_set h0 (hfb.1.trans hfa.1.symm)
          (hfb.2.1.trans hfa.2.1.symm) (hfb.2.2.trans hfa.2.2.symm) ?_
        rw [isDragged_congr (id_eq_of_meta_eq hfa.1)]
        exact hB'
      · have h0 : (ns.set i fa)[j]? = some b := by
          rw [List.getElem?_set_ne hne]; exact hb
        exact phase12Rel_set h0 hfb.1 hfb.2.1 hfb.2.2 hB'

lemma repelStep_rel (dragging : Option NodeId) (ns : List SimNode) (ij : ℕ × ℕ) :
    Phase12Rel dragging ns (repelStep dragging ns ij) := by
  unfold repelStep
  rcases h1 : ns[ij.1]? with _ | a <;> rcases h2 : ns[ij.2]? with _ | b <;>
    simp only []
  · exact phase12Rel_refl _ _
  · exact phase12Rel_refl _ _
  · exact phase12Rel_refl _ _
  · exact phase12Rel_double dragging ns ij.1 ij.2 a b _ _ h1 h2
      ⟨rfl, rfl, rfl⟩ ⟨rfl, rfl, rfl⟩

lemma springStep_rel (dragging : Option NodeId) (ns : List SimNode) (st : ℕ × ℕ) :
    Phase12Rel dragging ns (springStep dragging ns st) := by
  unfold springStep
  rcases h1 : ns[st.1]? with _ | s <;> rcases h2 : ns[st.2]? with _ | t <;>
    simp only []
  · exact phase12Rel_refl _ _
  · exact phase12Rel_refl _ _
  · exact phase12Rel_refl _ _
  · exact phase12Rel_double dragging ns st.1 st.2 s t _ _ h1 h2
      ⟨rfl, rfl, rfl⟩ ⟨rfl, rfl, rfl⟩

lemma foldl_phase12 {α : Type} (dragging : Option NodeId)
    (f : List SimNode → α → List SimNode)
    (hf : ∀ ns a, Phase12Rel dragging ns (f ns a)) :
    ∀ (l : List α) (ns : List SimNode), Phase12Rel dragging ns (l.foldl f ns)
  | [], ns => phase12Rel_refl _ _
  | a :: l, ns => by
      rw [List.foldl_cons]
      exact phase12Rel_trans (hf ns a) (foldl_phase12 dragging f hf l (f ns a))

-- ---------------------------------------------------------------------------
-- Phase 3 (`centerStep`) lemmas
-- ---------------------------------------------------------------------------

lemma centerStep_meta (dragging : Option NodeId) (n : SimNode) :
    (centerStep dragging n).toGraphNode = n.toGraphNode := by
  unfold centerStep
  split <;> rfl

lemma centerStep_dragged {dragging : Option NodeId} {n : SimNode}
    (h : isDragged dragging n = true) :
    centerStep dragging n = { n with vx := n.vx * DAMPING, vy := n.vy * DAMPING } := by
  unfold centerStep
  rw [if_pos h]

lemma centerStep_free_pos {dragging : Option NodeId} {n : SimNode}
    (h : isDragged dragging n = false) :
    (BOUNDS_MARGIN ≤ (centerStep dragging n).x ∧
      (centerStep dragging n).x ≤ WIDTH - BOUNDS_MARGIN) ∧
    (BOUNDS_MARGIN ≤ (centerStep dragging n).y ∧
      (centerStep dragging n).y ≤ HEIGHT - BOUNDS_MARGIN) := by
  unfold centerStep
  rw [if_neg (by simp [h])]
  refine ⟨⟨le_max_left _ _, max_le ?_ (min_le_left _ _)⟩,
    ⟨le_max_left _ _, max_le ?_ (min_le_left _ _)⟩⟩
  · rw [BOUNDS_MARGIN, WIDTH]; norm_num
  · rw [BOUNDS_MARGIN, HEIGHT]; norm_num

lemma speed_clamp_le {vx2 vy2 : ℝ} :
    mag (if MAX_VELOCITY * MAX_VELOCITY < vx2 * vx2 + vy2 * vy2
        then vx2 * (MAX_VELOCITY / Real.sqrt (vx2 * vx2 + vy2 * vy2)) else vx2)
      (if MAX_VELOCITY * MAX_VELOCITY < vx2 * vx2 + vy2 * vy2
        then vy2 * (MAX_VELOCITY / Real.sqrt (vx2 * vx2 + vy2 * vy2)) else vy2)
      ≤ MAX_VELOCITY := by
  by_cases hC : MAX_VELOCITY * MAX_VELOCITY < vx2 * vx2 + vy2 * vy2
  · rw [if_pos hC, if_pos hC, mag_mul]
    have hpos : 0 < vx2 * vx2 + vy2 * vy2 := by
      have : (0 : ℝ) < MAX_VELOCITY * MAX_VELOCITY := by rw [MAX_VELOCITY]; norm_num
      linarith
    have hs : 0 < Real.sqrt (vx2 * vx2 + vy2 * vy2) := Real.sqrt_pos.mpr hpos
    have habs : |MAX_VELOCITY / Real.sqrt (vx2 * vx2 + vy2 * vy2)|
        = MAX_VELOCITY / Real.sqrt (vx2 * vx2 + vy2 * vy2) := by
      refine abs_of_nonneg (div_nonneg ?_ (Real.sqrt_nonneg _))
      rw [MAX_VELOCITY]; norm_num
    rw [habs, mag]
    rw [div_eq_mul_inv, ← mul_assoc]
    have hmag : Real.sqrt (vx2 * vx2 + vy2 * vy2) * MAX_VELOCITY *
        (Real.sqrt (vx2 * vx2 + vy2 * vy2))⁻¹ = MAX_VELOCITY := by
      field_simp
    rw [hmag]
  · rw [if_neg hC, if_neg hC]
    refine mag_le_of_sq_le (by rw [MAX_VELOCITY]; norm_num) ?_
    linarith [not_lt.mp hC]

lemma centerStep_free_speed {dragging : Option NodeId} {n : SimNode}
    (h : isDragged dragging n = false) :
    mag (centerStep dragging n).vx (centerStep dragging n).vy ≤ MAX_VELOCITY := by
  unfold centerStep
  rw [if_neg (by simp [h])]
  exact speed_clamp_le

lemma centerStep_dragged_speed {dragging : Option NodeId} {n : SimNode}
    (h : isDragged dragging n = true) :
    mag (centerStep dragging n).vx (centerStep dragging n).vy
      = mag n.vx n.vy * DAMPING := by
  rw [centerStep_dragged h]
  show mag (n.vx * DAMPING) (n.vy * DAMPING) = mag n.vx n.vy * DAMPING
  rw [mag_mul, abs_of_nonneg (by rw [DAMPING]; norm_num)]

-- ---------------------------------------------------------------------------
-- Tick-level lemmas
-- ---------------------------------------------------------------------------

/-- The array state after phases 1 and 2 of a tick. -/
noncomputable def afterSpring (links : List (ℕ × ℕ)) (dragging : Option NodeId)
    (ns : List SimNode) : List SimNode :=
  links.foldl (springStep dragging) ((allPairs ns.length).foldl (repelStep dragging) ns)

lemma tick_eq_map (links : List (ℕ × ℕ)) (dragging : Option NodeId)
    (ns : List SimNode) :
    tick links dragging ns = (afterSpring links dragging ns).map (centerStep dragging) :=
  rfl

lemma afterSpring_phase12 (links : List (ℕ × ℕ)) (dragging : Option NodeId)
    (ns : List SimNode) : Phase12Rel dragging ns (afterSpring links dragging ns) :=
  phase12Rel_trans
    (foldl_phase12 dragging _ (fun ns' ij => repelStep_rel dragging ns' ij) _ ns)
    (foldl_phase12 dragging _ (fun ns' st => springStep_rel dragging ns' st) links _)

lemma tick_length (links : List (ℕ × ℕ)) (dragging : Option NodeId)
    (ns : List SimNode) : (tick links dragging ns).length = ns.length := by
  rw [tick_eq_map, List.length_map]
  exact (afterSpring_phase12 links dragging ns).1

lemma tick_meta (links : List (ℕ × ℕ)) (dragging : Option NodeId)
    (ns : List SimNode) (k : ℕ) :
    ((tick links dragging ns)[k]?).map SimNode.toGraphNode
      = (ns[k]?).map SimNode.toGraphNode := by
  rw [tick_eq_map, List.getElem?_map, Option.map_map]
  have hcomp : SimNode.toGraphNode ∘ centerStep dragging = SimNode.toGraphNode := by
    funext n; exact centerStep_meta dragging n
  rw [hcomp]
  exact (afterSpring_phase12 links dragging ns).2.1 k

/-- A dragged entry passes through phases 1 and 2 untouched. -/
lemma afterSpring_dragged {links : List (ℕ × ℕ)} {dragging : Option NodeId}
    {ns : List SimNode} {k : ℕ} {nk : SimNode} (h : ns[k]? = some nk)
    (hd : isDragged dragging nk = true) :
    (afterSpring links dragging ns)[k]? = some nk :=
  (afterSpring_phase12 links dragging ns).2.2.2.2 k nk h hd

/-- A dragged entry of a tick's output: position untouched, velocity damped. -/
lemma tick_dragged {links : List (ℕ × ℕ)} {dragging : Option NodeId}
    {ns : List SimNode} {k : ℕ} {nk : SimNode} (h : ns[k]? = some nk)
    (hd : isDragged dragging nk = true) :
    (tick links dragging ns)[k]?
      = some { nk with vx := nk.vx * DAMPING, vy := nk.vy * DAMPING } := by
  rw [tick_eq_map, List.getElem?_map, afterSpring_dragged h hd]
  simp only [Option.map_some']
  rw [centerStep_dragged hd]

/-- Any entry of the array after phases 1 and 2 whose id is the dragged id
is an entry of the input array (the phases never write to it). -/
lemma afterSpring_dragged_mem {links : List (ℕ × ℕ)} {dragging : Option NodeId}
    {ns : List SimNode} {k : ℕ} {m : SimNode}
    (hS : (afterSpring links dragging ns)[k]? = some m)
    (hd : isDragged dragging m = true) : ns[k]? = some m := by
  have hmeta := (afterSpring_phase12 links dragging ns).2.1 k
  rw [hS] at hmeta
  cases h0 : ns[k]? with
  | none => rw [h0] at hmeta; simp at hmeta
  | some nk =>
      rw [h0] at hmeta
      simp only [Option.map_some', Option.some.injEq] at hmeta
      have hdk : isDragged dragging nk = true := by
        rw [← isDragged_congr (id_eq_of_meta_eq hmeta)]
        exact hd
      have hkeep := @afterSpring_dragged links dragging ns k nk h0 hdk
      rw [hkeep] at hS
      exact hS

-- ---------------------------------------------------------------------------
-- Phase equality with the amended claim C1 phrasing
-- ---------------------------------------------------------------------------

lemma repelStep_eq_amended (dragging : Option NodeId) (ns : List SimNode)
    (ij : ℕ × ℕ) : repelStep dragging ns ij = amendedRepelStep dragging ns ij := by
  unfold repelStep amendedRepelStep
  rcases h1 : ns[ij.1]? with _ | a <;> rcases h2 : ns[ij.2]? with _ | b <;>
    simp only [mul_one_div]

lemma springStep_eq_claimed (dragging : Option NodeId) (ns : List SimNode)
    (st : ℕ × ℕ) : springStep dragging ns st = claimedSpringStep dragging ns st := by
  unfold springStep claimedSpringStep
  rcases h1 : ns[st.1]? with _ | s <;> rcases h2 : ns[st.2]? with _ | t <;>
    simp only [mul_one_div]

lemma centerStep_eq_amended (dragging : Option NodeId) (n : SimNode) :
    centerStep dragging n = amendedCenterStep dragging n := by
  unfold centerStep amendedCenterStep
  have hc : ∀ a : ℝ, a * CENTER_STRENGTH * DT = CENTER_STRENGTH * DT * a := by
    intro a; ring
  have hd : ∀ a : ℝ, a * DAMPING = DAMPING * a := fun a => mul_comm a DAMPING
  split
  · rw [hd, hd]
  · simp only [hc]

lemma tick_free_bounds {links : List (ℕ × ℕ)} {dragging : Option NodeId}
    {ns : List SimNode} {k : ℕ} {nd : SimNode}
    (h : (tick links dragging ns)[k]? = some nd)
    (hf : isDragged dragging nd = false) :
    (BOUNDS_MARGIN ≤ nd.x ∧ nd.x ≤ WIDTH - BOUNDS_MARGIN) ∧
    (BOUNDS_MARGIN ≤ nd.y ∧ nd.y ≤ HEIGHT - BOUNDS_MARGIN) := by
  rw [tick_eq_map, List.getElem?_map] at h
  cases hS : (afterSpring links dragging ns)[k]? with
  | none => rw [hS] at h; simp at h
  | some m =>
      rw [hS] at h
      simp only [Option.map_some', Option.some.injEq] at h
      have hm : isDragged dragging m = false := by
        rw [isDragged_congr (id_eq_of_meta_eq (centerStep_meta dragging m)).symm, h]
        exact hf
      rw [← h]
      exact centerStep_free_pos hm

lemma tick_speed_le {links : List (ℕ × ℕ)} {dragging : Option NodeId}
    {ns : List SimNode}
    (h : ∀ (k : ℕ) (nk : SimNode), ns[k]? = some nk → mag nk.vx nk.vy ≤ MAX_VELOCITY) :
    ∀ (k : ℕ) (nd : SimNode), (tick links dragging ns)[k]? = some nd →
      mag nd.vx nd.vy ≤ MAX_VELOCITY := by
  intro k nd hnd
  rw [tick_eq_map, List.getElem?_map] at hnd
  cases hS : (afterSpring links dragging ns)[k]? with
  | none => rw [hS] at hnd; simp at hnd
  | some m =>
      rw [hS] at hnd
      simp only [Option.map_some', Option.some.injEq] at hnd
      by_cases hd : isDragged dragging m = true
      · have hmem := afterSpring_dragged_mem hS hd
        have hb := h k m hmem
        rw [← hnd, centerStep_dragged_speed hd]
        have hM : (0 : ℝ) ≤ MAX_VELOCITY := by rw [MAX_VELOCITY]; norm_num
        calc mag m.vx m.vy * DAMPING ≤ MAX_VELOCITY * 1 := by
              refine mul_le_mul hb ?_ ?_ hM
              · rw [DAMPING]; norm_num
              · rw [DAMPING]; norm_num
        _ = MAX_VELOCITY := mul_one _
      · have hm : isDragged dragging m = false := by simpa using hd
        rw [← hnd]
        exact centerStep_free_speed hm

-- ---------------------------------------------------------------------------
-- Claims C9, C2, C3, C4
-- ---------------------------------------------------------------------------

/-- Claim C9: one simulation tick preserves everything except kinematics —
the output array has the same length (and order) as the input, and every
entry keeps its `GraphNode` data (id, label, properties); only the
kinematic fields may change.  No node is created or destroyed. -/
theorem claim_C9_tick_frame (links : List (ℕ × ℕ)) (dragging : Option NodeId)
    (ns : List SimNode) :
    (tick links dragging ns).length = ns.length ∧
    ∀ k : ℕ, ((tick links dragging ns)[k]?).map SimNode.toGraphNode
      = (ns[k]?).map SimNode.toGraphNode :=
  ⟨tick_length links dragging ns, tick_meta links dragging ns⟩

/-- Claim C2 (amended): after at least one tick every node that is not the
currently pinned one has its position inside the canvas bounds inclusive of
the margin; a pinned node is left where pointer input put it, so the bound
holds for it only if its position already satisfied it. -/
theorem claim_C2_amended (links : List (ℕ × ℕ)) (dragging : Option NodeId)
    (ns : List SimNode) (n : ℕ) (hn : 1 ≤ n) (k : ℕ) (nd : SimNode)
    (h : ((tick links dragging)^[n] ns)[k]? = some nd)
    (hf : isDragged dragging nd = false) :
    (BOUNDS_MARGIN ≤ nd.x ∧ nd.x ≤ WIDTH - BOUNDS_MARGIN) ∧
    (BOUNDS_MARGIN ≤ nd.y ∧ nd.y ≤ HEIGHT - BOUNDS_MARGIN) := by
  obtain ⟨m, rfl⟩ : ∃ m, n = m + 1 := ⟨n - 1, (Nat.succ_pred_eq_of_pos hn).symm⟩
  rw [Function.iterate_succ_apply'] at h
  exact tick_free_bounds h hf

/-- Claim C2 (as stated) is false: a pinned node's position is not clamped
by the tick.  A single node pinned at `x = 2` (inside the canvas but inside
the margin band, as pointer input can produce) still has `x = 2 <
BOUNDS_MARGIN` after a tick. -/
def exNodeC2 : SimNode :=
  { id := .num 1, label := none, properties := [], x := 2, y := 270, vx := 0, vy := 0 }

/-- Counterexample to claim C2 as stated: after one tick of a state whose
pinned node sits at `x = 2`, that node's `x` is still `2`, strictly less
than `BOUNDS_MARGIN`. -/
theorem claim_C2_counterexample :
    ((tick [] (some (.num 1)) [exNodeC2]).getD 0 exNodeC2).x = 2 ∧
    (2 : ℝ) < BOUNDS_MARGIN := by
  constructor
  · have h := @tick_dragged [] (some (.num 1)) [exNodeC2] 0 exNodeC2
      (show ([exNodeC2] : List SimNode)[0]? = some exNodeC2 from rfl)
      (show isDragged (some (.num 1)) exNodeC2 = true from rfl)
    rw [List.getD_eq_getElem?_getD, h]
    rfl
  · rw [BOUNDS_MARGIN]; norm_num

/-- Witness for claim C2 (amended) at a concrete input: one free node, one
tick. -/
def exNodeFree : SimNode :=
  { id := .num 2, label := none, properties := [], x := 480, y := 270, vx := 0, vy := 0 }

theorem claim_C2_witness :
    (1 ≤ 1) ∧
    (((tick [] none)^[1] [exNodeFree])[0]? = some (centerStep none exNodeFree)) ∧
    ((BOUNDS_MARGIN ≤ (centerStep none exNodeFree).x ∧
        (centerStep none exNodeFree).x ≤ WIDTH - BOUNDS_MARGIN) ∧
      (BOUNDS_MARGIN ≤ (centerStep none exNodeFree).y ∧
        (centerStep none exNodeFree).y ≤ HEIGHT - BOUNDS_MARGIN)) := by
  refine ⟨le_refl 1, rfl, ?_⟩
  exact claim_C2_amended [] none [exNodeFree] 1 (le_refl 1) 0
    (centerStep none exNodeFree) rfl rfl

/-- Claim C3: after any number of ticks every node's velocity magnitude is
at most `MAX_VELOCITY`, provided it was at most `MAX_VELOCITY` initially;
this covers pinned nodes (whose velocity is only damped) as well as free
ones (whose velocity is clamped). -/
theorem claim_C3_speed_invariant (links : List (ℕ × ℕ)) (dragging : Option NodeId)
    (ns : List SimNode) (n : ℕ)
    (h : ∀ (k : ℕ) (nk : SimNode), ns[k]? = some nk → mag nk.vx nk.vy ≤ MAX_VELOCITY) :
    ∀ (k : ℕ) (nd : SimNode), ((tick links dragging)^[n] ns)[k]? = some nd →
      mag nd.vx nd.vy ≤ MAX_VELOCITY := by
  induction n generalizing ns with
  | zero => simpa using h
  | succ m ih =>
      intro k nd hnd
      rw [Function.iterate_succ_apply] at hnd
      exact ih _ (tick_speed_le h) k nd hnd

theorem claim_C3_witness :
    (∀ (k : ℕ) (nk : SimNode), ([exNodeFree] : List SimNode)[k]? = some nk →
      mag nk.vx nk.vy ≤ MAX_VELOCITY) ∧
    (∀ (k : ℕ) (nd : SimNode), ((tick [] none)^[1] [exNodeFree])[k]? = some nd →
      mag nd.vx nd.vy ≤ MAX_VELOCITY) := by
  have hbase : ∀ (k : ℕ) (nk : SimNode), ([exNodeFree] : List SimNode)[k]? = some nk →
      mag nk.vx nk.vy ≤ MAX_VELOCITY := by
    intro k nk hk
    match k with
    | 0 =>
        cases hk
        show mag 0 0 ≤ MAX_VELOCITY
        rw [mag]
        rw [show (0 : ℝ) * 0 + 0 * 0 = 0 by ring, Real.sqrt_zero, MAX_VELOCITY]
        norm_num
    | k + 1 => simp at hk
  exact ⟨hbase, claim_C3_speed_invariant [] none [exNodeFree] 1 hbase⟩

/-- Claim C4: once the pointer position has been applied to the pinned node
(via the `handlePointerMove` update, which requires a non-falsy dragged id),
one tick leaves the pinned node's position exactly at the pointer position
and its velocity zero (the tick applies no force to it, only damping its
zero velocity). -/
theorem claim_C4_pinned_pointer (links : List (ℕ × ℕ)) (ns : List SimNode)
    (did : NodeId) (px py : ℝ) (k : ℕ) (nk : SimNode)
    (h : ns[k]? = some nk) (hid : nk.id = did) (hfal : did.falsy = false) :
    ∃ nd, (tick links (some did) (applyPointer (some did) px py ns))[k]? = some nd ∧
      nd.x = px ∧ nd.y = py ∧ nd.vx = 0 ∧ nd.vy = 0 := by
  have hap : (applyPointer (some did) px py ns)[k]?
      = some { nk with x := px, y := py, vx := 0, vy := 0 } := by
    simp only [applyPointer, hfal, Bool.false_eq_true, if_false, List.getElem?_map,
      h, Option.map_some', hid, if_true]
  have hdr : isDragged (some did) ({ nk with x := px, y := py, vx := 0, vy := 0 } : SimNode)
      = true := by
    simp [isDragged, hid]
  refine ⟨_, tick_dragged hap hdr, rfl, rfl, ?_, ?_⟩
  · show (0 : ℝ) * DAMPING = 0; ring
  · show (0 : ℝ) * DAMPING = 0; ring

/-- Witness for claim C4: one concrete node dragged to `(100, 200)`. -/
def exNodeC4 : SimNode :=
  { id := .str "a", label := none, properties := [], x := 7, y := 8, vx := 3, vy := 4 }

theorem claim_C4_witness :
    (([exNodeC4] : List SimNode)[0]? = some exNodeC4) ∧
    (exNodeC4.id = .str "a") ∧ (NodeId.falsy (.str "a") = false) ∧
    ∃ nd, (tick [] (some (.str "a"))
        (applyPointer (some (.str "a")) 100 200 [exNodeC4]))[0]? = some nd ∧
      nd.x = 100 ∧ nd.y = 200 ∧ nd.vx = 0 ∧ nd.vy = 0 :=
  ⟨rfl, rfl, rfl,
    claim_C4_pinned_pointer [] [exNodeC4] (.str "a") 100 200 0 exNodeC4 rfl rfl rfl⟩

-- ---------------------------------------------------------------------------
-- Single-node tick evaluation helpers
-- ---------------------------------------------------------------------------

lemma tick_single (dragging : Option NodeId) (n : SimNode) :
    tick [] dragging [n] = [centerStep dragging n] := rfl

lemma centerStep_eval_noclamp {dragging : Option NodeId} {n : SimNode}
    (h : isDragged dragging n = false)
    (hsp : ((n.vx + (WIDTH / 2 - n.x) * CENTER_STRENGTH * DT) * DAMPING) *
        ((n.vx + (WIDTH / 2 - n.x) * CENTER_STRENGTH * DT) * DAMPING) +
      ((n.vy + (HEIGHT / 2 - n.y) * CENTER_STRENGTH * DT) * DAMPING) *
        ((n.vy + (HEIGHT / 2 - n.y) * CENTER_STRENGTH * DT) * DAMPING)
      ≤ MAX_VELOCITY * MAX_VELOCITY) :
    centerStep dragging n = { n with
      x := max BOUNDS_MARGIN (min (WIDTH - BOUNDS_MARGIN)
        (n.x + (n.vx + (WIDTH / 2 - n.x) * CENTER_STRENGTH * DT) * DAMPING)),
      y := max BOUNDS_MARGIN (min (HEIGHT - BOUNDS_MARGIN)
        (n.y + (n.vy + (HEIGHT / 2 - n.y) * CENTER_STRENGTH * DT) * DAMPING)),
      vx := (n.vx + (WIDTH / 2 - n.x) * CENTER_STRENGTH * DT) * DAMPING,
      vy := (n.vy + (HEIGHT / 2 - n.y) * CENTER_STRENGTH * DT) * DAMPING } := by
  unfold centerStep
  rw [if_neg (by simp [h])]
  dsimp only
  rw [if_neg (not_lt.mpr hsp), if_neg (not_lt.mpr hsp)]

lemma speed_clamp_shrink {vx2 vy2 : ℝ} :
    mag (if MAX_VELOCITY * MAX_VELOCITY < vx2 * vx2 + vy2 * vy2
        then vx2 * (MAX_VELOCITY / Real.sqrt (vx2 * vx2 + vy2 * vy2)) else vx2)
      (if MAX_VELOCITY * MAX_VELOCITY < vx2 * vx2 + vy2 * vy2
        then vy2 * (MAX_VELOCITY / Real.sqrt (vx2 * vx2 + vy2 * vy2)) else vy2)
      ≤ mag vx2 vy2 := by
  by_cases hC : MAX_VELOCITY * MAX_VELOCITY < vx2 * vx2 + vy2 * vy2
  · rw [if_pos hC, if_pos hC, mag_mul]
    have hM : (0 : ℝ) ≤ MAX_VELOCITY := by rw [MAX_VELOCITY]; norm_num
    have hMM : (0 : ℝ) < MAX_VELOCITY * MAX_VELOCITY := by rw [MAX_VELOCITY]; norm_num
    have hsp : 0 < Real.sqrt (vx2 * vx2 + vy2 * vy2) :=
      Real.sqrt_pos.mpr (lt_trans hMM hC)
    have hMs : MAX_VELOCITY ≤ Real.sqrt (vx2 * vx2 + vy2 * vy2) := by
      have := Real.sqrt_le_sqrt (le_of_lt hC)
      calc MAX_VELOCITY = Real.sqrt (MAX_VELOCITY ^ 2) := (Real.sqrt_sq hM).symm
      _ ≤ Real.sqrt (vx2 * vx2 + vy2 * vy2) := by
          rw [show MAX_VELOCITY ^ 2 = MAX_VELOCITY * MAX_VELOCITY by ring]
          exact this
    have habs : |MAX_VELOCITY / Real.sqrt (vx2 * vx2 + vy2 * vy2)| ≤ 1 := by
      rw [abs_of_nonneg (div_nonneg hM (le_of_lt hsp))]
      rw [div_le_one hsp]
      exact hMs
    calc mag vx2 vy2 * |MAX_VELOCITY / Real.sqrt (vx2 * vx2 + vy2 * vy2)|
        ≤ mag vx2 vy2 * 1 := mul_le_mul_of_nonneg_left habs (mag_nonneg _ _)
    _ = mag vx2 vy2 := mul_one _
  · rw [if_neg hC, if_neg hC]

-- ---------------------------------------------------------------------------
-- Claim C1
-- ---------------------------------------------------------------------------

/-- Claim C1 (amended): one tick is exactly the three phases in order —
(1) pairwise repulsion with impulse `REPEL_STRENGTH / (|d|² + 0.01)` scaled
by `DT` along the pair vector normalized by `sqrt (|d|² + 0.01)` (not by
`|d|`), opposite signs, skipping the pinned side; (2) the spring impulse per
resolved link as claimed; (3) per non-pinned node centering, damping, speed
clamp, integration and bounds clamp in that order, and per pinned node only
multiplication of the velocity by `DAMPING`. -/
theorem claim_C1_amended (links : List (ℕ × ℕ)) (dragging : Option NodeId)
    (ns : List SimNode) :
    tick links dragging ns
      = amendedCenterPhase dragging
          (amendedSpringPhase links dragging (amendedRepelPhase dragging ns)) := by
  have h1 : repelStep dragging = amendedRepelStep dragging :=
    funext fun ns' => funext fun ij => repelStep_eq_amended dragging ns' ij
  have h2 : springStep dragging = claimedSpringStep dragging :=
    funext fun ns' => funext fun st => springStep_eq_claimed dragging ns' st
  have h3 : centerStep dragging = amendedCenterStep dragging :=
    funext (centerStep_eq_amended dragging)
  unfold tick amendedCenterPhase amendedSpringPhase amendedRepelPhase
  rw [h1, h2, h3]

/-- A pinned node with unit velocity, for the C1 counterexample. -/
def exNodeP : SimNode :=
  { id := .num 3, label := none, properties := [], x := 100, y := 200, vx := 1, vy := 0 }

/-- Two free nodes at distance 1, for the C1 counterexample. -/
def exRA : SimNode :=
  { id := .num 1, label := none, properties := [], x := 100, y := 100, vx := 0, vy := 0 }

def exRB : SimNode :=
  { id := .num 2, label := none, properties := [], x := 101, y := 100, vx := 0, vy := 0 }

/-- Counterexample to claim C1 as stated: (i) composing the three phases
exactly as the claim words them differs from the tick on a pinned node with
non-zero velocity (the claim's phase 3 never damps a pinned node); (ii) the
claimed repulsion impulse (magnitude `REPEL_STRENGTH / (|d|² + 0.01)` along
the true unit vector `d / |d|`) differs from the code's impulse, which is
normalized by `sqrt (|d|² + 0.01)`. -/
theorem claim_C1_counterexample :
    claimedTick [] (some (.num 3)) [exNodeP] ≠ tick [] (some (.num 3)) [exNodeP] ∧
    claimedRepelStep none [exRA, exRB] (0, 1) ≠ repelStep none [exRA, exRB] (0, 1) := by
  constructor
  · have h1 : claimedTick [] (some (.num 3)) [exNodeP] = [exNodeP] := rfl
    have h2 : (tick [] (some (.num 3)) [exNodeP])[0]?
        = some { exNodeP with vx := exNodeP.vx * DAMPING, vy := exNodeP.vy * DAMPING } :=
      tick_dragged rfl rfl
    intro h
    rw [h1] at h
    rw [← h] at h2
    have h3 : exNodeP
        = { exNodeP with vx := exNodeP.vx * DAMPING, vy := exNodeP.vy * DAMPING } :=
      Option.some.inj h2
    have hv := congrArg SimNode.vx h3
    rw [show exNodeP.vx = 1 from rfl, DAMPING] at hv
    norm_num at hv
  · intro h
    have hv := congrArg (fun l => (l.getD 1 exRA).vx) h
    simp only [claimedRepelStep, repelStep, isDragged, exRA, exRB,
      List.getElem?_cons_zero, List.getElem?_cons_succ, List.set_cons_zero,
      List.set_cons_succ, List.getD_eq_getElem?_getD, Bool.false_eq_true,
      if_false, Option.getD_some] at hv
    norm_num [REPEL_STRENGTH, DT, Real.sqrt_one] at hv
    have h100 : Real.sqrt 100 = 10 := by
      rw [show (100 : ℝ) = 10 ^ 2 by norm_num, Real.sqrt_sq (by norm_num)]
    have hs101 : 10 < Real.sqrt 101 := by
      rw [← h100]
      exact Real.sqrt_lt_sqrt (by norm_num) (by norm_num)
    have hspos : (0 : ℝ) < Real.sqrt 101 := by linarith
    rw [h100] at hv
    field_simp [ne_of_gt hspos] at hv
    nlinarith [hv, hs101, hspos]

-- ---------------------------------------------------------------------------
-- Claim C7
-- ---------------------------------------------------------------------------

/-- Claim C7 (amended): node-map lookup and link endpoint resolution are by
string-coerced equality — any two ids with equal string coercions are
interchangeable there — but the per-tick check of whether a node is the
pinned one is strict equality on the id value (it distinguishes a numeric
id from a string id with the same coercion). -/
theorem claim_C7_amended :
    (∀ (m : List (String × SimNode)) (a b : NodeId), a.toStr = b.toStr →
      lookupById m a = lookupById m b) ∧
    (∀ (nodes : List GraphNode) (a b : NodeId), a.toStr = b.toStr →
      indexOfId nodes a = indexOfId nodes b) ∧
    (∀ (d : NodeId) (n : SimNode), isDragged (some d) n = true ↔ n.id = d) := by
  refine ⟨fun m a b h => ?_, fun nodes a b h => ?_, fun d n => ?_⟩
  · unfold lookupById
    rw [h]
  · unfold indexOfId
    rw [h]
  · simp [isDragged]

/-- A node with numeric id 1, for the C7 counterexample and witness. -/
def exNode7 : SimNode :=
  { id := .num 1, label := none, properties := [], x := 100, y := 270, vx := 0, vy := 0 }

theorem claim_C7_witness :
    (NodeId.toStr (.num 1) = NodeId.toStr (.str "1")) ∧
    (lookupById [] (.num 1) = lookupById [] (.str "1")) ∧
    (indexOfId [] (.num 1) = indexOfId [] (.str "1")) ∧
    (isDragged (some (.num 1)) exNode7 = true ↔ exNode7.id = .num 1) := by
  have h : NodeId.toStr (.num 1) = NodeId.toStr (.str "1") := rfl
  exact ⟨h, claim_C7_amended.1 [] _ _ h, claim_C7_amended.2.1 [] _ _ h,
    claim_C7_amended.2.2 (.num 1) exNode7⟩

/-- Counterexample to claim C7 as stated: the ids `num 1` and `str "1"`
string-coerce identically, yet the tick's pinned check treats the node with
id `num 1` as not pinned when the dragged id is `str "1"` — the tick moves
it (its `x` changes), which could not happen were the comparison
string-coerced. -/
theorem claim_C7_counterexample :
    (NodeId.toStr (.num 1) = NodeId.toStr (.str "1")) ∧
    (isDragged (some (.str "1")) exNode7 = false) ∧
    ((tick [] (some (.str "1")) [exNode7]).getD 0 exNode7).x ≠ exNode7.x := by
  refine ⟨rfl, rfl, ?_⟩
  have hfree : isDragged (some (.str "1")) exNode7 = false := rfl
  rw [tick_single, List.getD_eq_getElem?_getD]
  simp only [List.getElem?_cons_zero, Option.getD_some]
  rw [centerStep_eval_noclamp hfree (by
    norm_num [exNode7, WIDTH, HEIGHT, CENTER_STRENGTH, DT, DAMPING, MAX_VELOCITY])]
  have hinner : exNode7.x + (exNode7.vx + (WIDTH / 2 - exNode7.x) * CENTER_STRENGTH * DT)
      * DAMPING = 100.027968 := by
    norm_num [exNode7, WIDTH, CENTER_STRENGTH, DT, DAMPING]
  show max BOUNDS_MARGIN (min (WIDTH - BOUNDS_MARGIN) _) ≠ exNode7.x
  rw [hinner]
  rw [min_eq_right (by rw [WIDTH, BOUNDS_MARGIN]; norm_num),
    max_eq_right (by rw [BOUNDS_MARGIN]; norm_num)]
  show (100.027968 : ℝ) ≠ exNode7.x
  norm_num [exNode7]

-- ---------------------------------------------------------------------------
-- Claim C8
-- ---------------------------------------------------------------------------

/-- Claim C8 (amended): for a released (non-pinned) single node with no
links, one tick bounds the new velocity magnitude by
`DAMPING * (|v| + CENTER_STRENGTH * DT * |center - pos|)`; the velocity
magnitude need not decrease monotonically, because the centering impulse
still acts on the node. -/
theorem claim_C8_amended (dragging : Option NodeId) (n : SimNode)
    (hfree : isDragged dragging n = false) (nd : SimNode)
    (h : (tick [] dragging [n])[0]? = some nd) :
    mag nd.vx nd.vy ≤ DAMPING * (mag n.vx n.vy +
      CENTER_STRENGTH * DT * mag (WIDTH / 2 - n.x) (HEIGHT / 2 - n.y)) := by
  rw [tick_single] at h
  simp only [List.getElem?_cons_zero, Option.some.injEq] at h
  subst h
  unfold centerStep
  rw [if_neg (by simp [hfree])]
  dsimp only
  refine le_trans speed_clamp_shrink ?_
  have hD : (0 : ℝ) ≤ DAMPING := by rw [DAMPING]; norm_num
  have hCD : (0 : ℝ) ≤ CENTER_STRENGTH * DT := by
    rw [CENTER_STRENGTH, DT]; norm_num
  rw [mag_mul, abs_of_nonneg hD, mul_comm]
  refine mul_le_mul_of_nonneg_left ?_ hD
  refine le_trans (mag_add_le n.vx n.vy _ _) ?_
  refine add_le_add_left ?_ _
  have hc : ∀ a : ℝ, a * CENTER_STRENGTH * DT = a * (CENTER_STRENGTH * DT) := by
    intro a; ring
  rw [hc, hc, mag_mul, abs_of_nonneg hCD, mul_comm]

theorem claim_C8_witness :
    (isDragged none exNodeFree = false) ∧
    ((tick [] none [exNodeFree])[0]? = some (centerStep none exNodeFree)) ∧
    mag (centerStep none exNodeFree).vx (centerStep none exNodeFree).vy
      ≤ DAMPING * (mag exNodeFree.vx exNodeFree.vy + CENTER_STRENGTH * DT *
        mag (WIDTH / 2 - exNodeFree.x) (HEIGHT / 2 - exNodeFree.y)) :=
  ⟨rfl, rfl, claim_C8_amended none exNodeFree rfl (centerStep none exNodeFree) rfl⟩

/-- A free node 100 units left of the canvas center with zero velocity, for
the C8 counterexample. -/
def exNode8 : SimNode :=
  { id := .num 5, label := none, properties := [], x := 380, y := 270, vx := 0, vy := 0 }

/-- Counterexample to claim C8 as stated: after releasing a pin, with no
other node or link present, the velocity magnitude does not decrease
monotonically — a node at rest away from the canvas center gains speed on
the next tick from the centering impulse. -/
theorem claim_C8_counterexample :
    mag (((tick [] none [exNode8]).getD 0 exNode8).vx)
      (((tick [] none [exNode8]).getD 0 exNode8).vy)
      > mag exNode8.vx exNode8.vy := by
  rw [tick_single, List.getD_eq_getElem?_getD]
  simp only [List.getElem?_cons_zero, Option.getD_some]
  have hfree : isDragged none exNode8 = false := rfl
  rw [centerStep_eval_noclamp hfree (by
    norm_num [exNode8, WIDTH, HEIGHT, CENTER_STRENGTH, DT, DAMPING, MAX_VELOCITY])]
  have hrhs : mag exNode8.vx exNode8.vy = 0 := by
    rw [mag]
    norm_num [exNode8]
  rw [hrhs]
  show mag ((exNode8.vx + (WIDTH / 2 - exNode8.x) * CENTER_STRENGTH * DT) * DAMPING)
    ((exNode8.vy + (HEIGHT / 2 - exNode8.y) * CENTER_STRENGTH * DT) * DAMPING) > 0
  rw [mag]
  refine Real.sqrt_pos.mpr ?_
  norm_num [exNode8, WIDTH, HEIGHT, CENTER_STRENGTH, DT, DAMPING]

-- ---------------------------------------------------------------------------
-- Link-resolution lemmas (claims C6, C10)
-- ---------------------------------------------------------------------------

lemma resolveOne_spec {m : List (String × SimNode)} {l : GraphLink}
    {r : ResolvedLink} (h : resolveOne m l = some r) :
    r.link = l ∧ lookupById m l.source = some r.source ∧
      lookupById m l.target = some r.target := by
  unfold resolveOne at h
  split at h
  · cases h
    exact ⟨rfl, by assumption, by assumption⟩
  · cases h

lemma resolveOne_isSome (m : List (String × SimNode)) (l : GraphLink) :
    (resolveOne m l).isSome
      = ((lookupById m l.source).isSome && (lookupById m l.target).isSome) := by
  unfold resolveOne
  rcases hs : lookupById m l.source with _ | s <;>
    rcases ht : lookupById m l.target with _ | t <;> simp

lemma map_link_filterMap (m : List (String × SimNode)) :
    ∀ ls : List GraphLink,
      ((ls.filterMap (resolveOne m)).map ResolvedLink.link)
        = ls.filter (fun l =>
            (lookupById m l.source).isSome && (lookupById m l.target).isSome)
  | [] => rfl
  | l :: ls => by
      rw [List.filterMap_cons, List.filter_cons]
      cases hro : resolveOne m l with
      | none =>
          have hp : ((lookupById m l.source).isSome &&
              (lookupById m l.target).isSome) = false := by
            rw [← resolveOne_isSome, hro]
            rfl
          rw [hp]
          simp only [Bool.false_eq_true, if_false]
          exact map_link_filterMap m ls
      | some r =>
          have hp : ((lookupById m l.source).isSome &&
              (lookupById m l.target).isSome) = true := by
            rw [← resolveOne_isSome, hro]
            rfl
          rw [hp]
          simp only [if_true, List.map_cons]
          rw [(resolveOne_spec hro).1, map_link_filterMap m ls]

-- Concrete data for the C6 example.

def simA : SimNode :=
  { id := .str "A", label := none, properties := [], x := 10, y := 20, vx := 0, vy := 0 }

def simB : SimNode :=
  { id := .str "B", label := none, properties := [], x := 30, y := 40, vx := 0, vy := 0 }

def exLinkAB : GraphLink :=
  { id := .num 10, source := .str "A", target := .str "B", relType := none,
    properties := [] }

def exLinkMiss : GraphLink :=
  { id := .num 11, source := .str "A", target := .str "missing", relType := none,
    properties := [] }

def exData6 : GraphResponse :=
  ⟨[simA.toGraphNode, simB.toGraphNode], [exLinkAB, exLinkMiss]⟩

/-- Claim C6: link resolution returns exactly the sublist (in input order)
of links whose string-coerced endpoints are both present in the node map,
each paired with the looked-up `SimNode`s; links with a missing endpoint
are silently dropped.  In particular, for nodes `{A, B}` and links
`[A→B, A→missing]` the result is exactly the one `A→B` entry. -/
theorem claim_C6_resolveLinks :
    (∀ (data : GraphResponse) (m : List (String × SimNode)),
      ((resolveLinks (some data) m).map ResolvedLink.link
          = data.links.filter (fun l =>
              (lookupById m l.source).isSome && (lookupById m l.target).isSome)) ∧
      (∀ r ∈ resolveLinks (some data) m,
        lookupById m r.link.source = some r.source ∧
        lookupById m r.link.target = some r.target)) ∧
    resolveLinks (some exData6) (createNodeMap [simA, simB])
      = [⟨exLinkAB, simA, simB⟩] := by
  refine ⟨fun data m => ⟨map_link_filterMap m data.links, fun r hr => ?_⟩, rfl⟩
  rw [resolveLinks, List.mem_filterMap] at hr
  obtain ⟨l, _, hro⟩ := hr
  obtain ⟨hl, hs, ht⟩ := resolveOne_spec hro
  rw [hl]
  exact ⟨hs, ht⟩

theorem claim_C6_witness :
    ((⟨exLinkAB, simA, simB⟩ : ResolvedLink)
        ∈ resolveLinks (some exData6) (createNodeMap [simA, simB])) ∧
    lookupById (createNodeMap [simA, simB]) exLinkAB.source = some simA ∧
    lookupById (createNodeMap [simA, simB]) exLinkAB.target = some simB := by
  have hmem : (⟨exLinkAB, simA, simB⟩ : ResolvedLink)
      ∈ resolveLinks (some exData6) (createNodeMap [simA, simB]) := by
    rw [claim_C6_resolveLinks.2]
    exact List.mem_singleton.mpr rfl
  exact ⟨hmem,
    (claim_C6_resolveLinks.1 exData6 (createNodeMap [simA, simB])).2 _ hmem⟩

-- ---------------------------------------------------------------------------
-- Claim C10
-- ---------------------------------------------------------------------------

lemma filterMap_filter_eq {α β : Type} (f : α → Option β) (q : α → Bool)
    (h : ∀ a, q a = false → f a = none) :
    ∀ ls : List α, (ls.filter q).filterMap f = ls.filterMap f
  | [] => rfl
  | a :: ls => by
      rw [List.filter_cons]
      cases hq : q a with
      | true =>
          simp only [if_true]
          rw [List.filterMap_cons, List.filterMap_cons,
            filterMap_filter_eq f q h ls]
      | false =>
          simp only [Bool.false_eq_true, if_false]
          rw [List.filterMap_cons, h a hq, filterMap_filter_eq f q h ls]

def simC : SimNode :=
  { id := .str "C", label := none, properties := [], x := 1, y := 2, vx := 0, vy := 0 }

def exLinkCC : GraphLink :=
  { id := .num 12, source := .str "C", target := .str "C", relType := none,
    properties := [] }

/-- Claim C10: a self-link (source and target string-coerce to the same
node) contributes no spring force — every pre-resolved index pair has
distinct indices, and dropping self-coercing links from the raw link list
does not change the pre-resolved pair list — even though render-time
resolution (`resolveLinks`) still includes such a link (resolved to the
same node on both ends) when the endpoint exists. -/
theorem claim_C10_selfLinks :
    (∀ (data : GraphResponse) (p : ℕ × ℕ), p ∈ simLinks data → p.1 ≠ p.2) ∧
    (∀ data : GraphResponse,
      simLinks ⟨data.nodes,
        data.links.filter (fun l => !(l.source.toStr == l.target.toStr))⟩
      = simLinks data) ∧
    (∀ (m : List (String × SimNode)) (l : GraphLink) (s : SimNode),
      l.source.toStr = l.target.toStr → lookupById m l.source = some s →
      resolveOne m l = some ⟨l, s, s⟩) := by
  refine ⟨fun data p hp => ?_, fun data => ?_, fun m l s hstr hs => ?_⟩
  · rw [simLinks, List.mem_filterMap] at hp
    obtain ⟨l, _, h⟩ := hp
    split at h
    · split at h
      · cases h
      · cases h
        simpa using ‹¬ _›
    · cases h
  · unfold simLinks
    dsimp only
    refine filterMap_filter_eq _ _ (fun l hq => ?_) data.links
    have hstr : l.source.toStr = l.target.toStr := by
      simpa using hq
    have hidx : indexOfId data.nodes l.source = indexOfId data.nodes l.target := by
      unfold indexOfId
      rw [hstr]
    cases hi : indexOfId data.nodes l.source with
    | none =>
        have hi2 : indexOfId data.nodes l.target = none := by rw [← hidx, hi]
        rw [hi2]
    | some si =>
        have hi2 : indexOfId data.nodes l.target = some si := by rw [← hidx, hi]
        rw [hi2]
        simp
  · have ht : lookupById m l.target = some s := by
      unfold lookupById mapGet at hs ⊢
      rw [← hstr]
      exact hs
    unfold resolveOne
    rw [hs, ht]

theorem claim_C10_witness :
    (NodeId.toStr exLinkCC.source = NodeId.toStr exLinkCC.target) ∧
    (lookupById (createNodeMap [simC]) exLinkCC.source = some simC) ∧
    resolveOne (createNodeMap [simC]) exLinkCC = some ⟨exLinkCC, simC, simC⟩ :=
  ⟨rfl, rfl, claim_C10_selfLinks.2.2 (createNodeMap [simC]) exLinkCC simC rfl rfl⟩

-- ---------------------------------------------------------------------------
-- Layout initializer lemmas (claim C5)
-- ---------------------------------------------------------------------------

lemma mapWithIndex_length (f : ℕ → α → β) :
    ∀ (s : ℕ) (l : List α), (mapWithIndex f s l).length = l.length
  | _, [] => rfl
  | s, _ :: as => by
      rw [mapWithIndex, List.length_cons, List.length_cons,
        mapWithIndex_length f (s + 1) as]

lemma mapWithIndex_getElem? (f : ℕ → α → β) :
    ∀ (s : ℕ) (l : List α) (k : ℕ),
      (mapWithIndex f s l)[k]? = (l[k]?).map (f (s + k))
  | _, [], k => by simp [mapWithIndex]
  | s, a :: as, 0 => by simp [mapWithIndex]
  | s, a :: as, k + 1 => by
      rw [mapWithIndex, List.getElem?_cons_succ, List.getElem?_cons_succ,
        mapWithIndex_getElem? f (s + 1) as k, show s + 1 + k = s + (k + 1) by omega]

lemma usableWidth_nonneg : (0 : ℝ) ≤ usableWidth := by
  rw [usableWidth, WIDTH]; norm_num

lemma usableHeight_nonneg : (0 : ℝ) ≤ usableHeight := by
  rw [usableHeight, HEIGHT]; norm_num

lemma initCols_pos (c : ℕ) : 1 ≤ initCols c := le_max_left _ _

lemma initCellWidth_nonneg (c : ℕ) : 0 ≤ initCellWidth c := by
  unfold initCellWidth
  split
  · exact div_nonneg usableWidth_nonneg (Nat.cast_nonneg _)
  · exact le_refl 0

lemma initCellHeight_nonneg (c : ℕ) : 0 ≤ initCellHeight c := by
  unfold initCellHeight
  split
  · exact div_nonneg usableHeight_nonneg (Nat.cast_nonneg _)
  · exact le_refl 0

lemma count_le_cols_mul_rows (c : ℕ) : c ≤ initCols c * initRows c := by
  have hcols : 1 ≤ initCols c := initCols_pos c
  have hcpos : (0 : ℝ) < (initCols c : ℝ) := by
    exact_mod_cast Nat.lt_of_lt_of_le Nat.zero_lt_one hcols
  have hceil : (c : ℝ) / (initCols c : ℝ) ≤ (⌈(c : ℝ) / (initCols c : ℝ)⌉₊ : ℝ) :=
    Nat.le_ceil _
  have hrows : (⌈(c : ℝ) / (initCols c : ℝ)⌉₊ : ℕ) ≤ initRows c := le_max_right _ _
  have hrowsR : ((⌈(c : ℝ) / (initCols c : ℝ)⌉₊ : ℕ) : ℝ) ≤ (initRows c : ℝ) := by
    exact_mod_cast hrows
  have hR : (c : ℝ) ≤ (initRows c : ℝ) * (initCols c : ℝ) := by
    rw [← div_le_iff₀ hcpos]
    exact le_trans hceil hrowsR
  have : (c : ℝ) ≤ ((initCols c * initRows c : ℕ) : ℝ) := by
    push_cast
    linarith
  exact_mod_cast this

lemma col_mul_cw_le (c k : ℕ) :
    ((k % initCols c : ℕ) : ℝ) * initCellWidth c ≤ usableWidth := by
  unfold initCellWidth
  by_cases h1 : 1 < initCols c
  · rw [if_pos h1]
    have hmod : k % initCols c ≤ initCols c - 1 := by
      have := Nat.mod_lt k (show 0 < initCols c by omega)
      omega
    have hcast : ((k % initCols c : ℕ) : ℝ) ≤ ((initCols c - 1 : ℕ) : ℝ) := by
      exact_mod_cast hmod
    have hpos : (0 : ℝ) < ((initCols c - 1 : ℕ) : ℝ) := by
      exact_mod_cast show 0 < initCols c - 1 by omega
    calc ((k % initCols c : ℕ) : ℝ) * (usableWidth / ((initCols c - 1 : ℕ) : ℝ))
        ≤ ((initCols c - 1 : ℕ) : ℝ) * (usableWidth / ((initCols c - 1 : ℕ) : ℝ)) :=
          mul_le_mul_of_nonneg_right hcast
            (div_nonneg usableWidth_nonneg (le_of_lt hpos))
    _ = usableWidth := by
        rw [mul_comm]
        exact div_mul_cancel₀ _ (ne_of_gt hpos)
  · rw [if_neg h1, mul_zero]
    exact usableWidth_nonneg

lemma row_mul_ch_le (c k : ℕ) (hk : k < c) :
    ((k / initCols c : ℕ) : ℝ) * initCellHeight c ≤ usableHeight := by
  unfold initCellHeight
  by_cases h1 : 1 < initRows c
  · rw [if_pos h1]
    have hrow : k / initCols c < initRows c := by
      rw [Nat.div_lt_iff_lt_mul (show 0 < initCols c by
        have := initCols_pos c; omega)]
      calc k < c := hk
      _ ≤ initCols c * initRows c := count_le_cols_mul_rows c
      _ = initRows c * initCols c := Nat.mul_comm _ _
    have hmod : k / initCols c ≤ initRows c - 1 := by omega
    have hcast : ((k / initCols c : ℕ) : ℝ) ≤ ((initRows c - 1 : ℕ) : ℝ) := by
      exact_mod_cast hmod
    have hpos : (0 : ℝ) < ((initRows c - 1 : ℕ) : ℝ) := by
      exact_mod_cast show 0 < initRows c - 1 by omega
    calc ((k / initCols c : ℕ) : ℝ) * (usableHeight / ((initRows c - 1 : ℕ) : ℝ))
        ≤ ((initRows c - 1 : ℕ) : ℝ) * (usableHeight / ((initRows c - 1 : ℕ) : ℝ)) :=
          mul_le_mul_of_nonneg_right hcast
            (div_nonneg usableHeight_nonneg (le_of_lt hpos))
    _ = usableHeight := by
        rw [mul_comm]
        exact div_mul_cancel₀ _ (ne_of_gt hpos)
  · rw [if_neg h1, mul_zero]
    exact usableHeight_nonneg

lemma cell_fraction_bounds {cw colR r U : ℝ} (hcw : 0 ≤ cw) (hcol0 : 0 ≤ colR)
    (hcolMax : colR * cw ≤ U) (hr0 : 0 ≤ r) (hr1 : r < 1) :
    16 - cw / 10 ≤ 16 + colR * cw + cw * 0.2 * (r - 0.5) ∧
    16 + colR * cw + cw * 0.2 * (r - 0.5) ≤ 16 + U + cw / 10 := by
  have hj1 : -(cw / 10) ≤ cw * 0.2 * (r - 0.5) := by nlinarith
  have hj2 : cw * 0.2 * (r - 0.5) ≤ cw / 10 := by nlinarith
  have hcc : 0 ≤ colR * cw := mul_nonneg hcol0 hcw
  constructor <;> linarith

/-- Claim C5 (amended): the initializer yields one `SimNode` per input node
in input order — the `k`-th output extends the `k`-th input node's
id/label/properties — each with zero velocity, with position inside the
margin-inset canvas *widened by one tenth of a grid cell on each side* (the
random jitter of `±0.1 · cell` can leave the `[margin, size - margin]`
band); empty input yields an empty output. -/
theorem claim_C5_amended (data : GraphResponse) (rand : ℕ → ℝ × ℝ)
    (hr : ∀ i, 0 ≤ (rand i).1 ∧ (rand i).1 < 1 ∧ 0 ≤ (rand i).2 ∧ (rand i).2 < 1) :
    ((createInitialNodes data rand).length = data.nodes.length) ∧
    (∀ k : ℕ, ((createInitialNodes data rand)[k]?).map SimNode.toGraphNode
      = data.nodes[k]?) ∧
    (data.nodes = [] → createInitialNodes data rand = []) ∧
    (∀ (k : ℕ) (nd : SimNode), (createInitialNodes data rand)[k]? = some nd →
      nd.vx = 0 ∧ nd.vy = 0 ∧
      (16 - initCellWidth data.nodes.length / 10 ≤ nd.x ∧
        nd.x ≤ (WIDTH - 16) + initCellWidth data.nodes.length / 10) ∧
      (16 - initCellHeight data.nodes.length / 10 ≤ nd.y ∧
        nd.y ≤ (HEIGHT - 16) + initCellHeight data.nodes.length / 10)) := by
  by_cases hE : data.nodes.isEmpty
  · have hnil : data.nodes = [] := by
      cases hn : data.nodes
      · rfl
      · rw [hn] at hE; simp [List.isEmpty] at hE
    refine ⟨?_, fun k => ?_, fun _ => ?_, fun k nd h => ?_⟩
    · unfold createInitialNodes
      rw [if_pos hE, hnil]
      rfl
    · unfold createInitialNodes
      rw [if_pos hE, hnil]
      rfl
    · unfold createInitialNodes
      rw [if_pos hE]
    · unfold createInitialNodes at h
      rw [if_pos hE] at h
      simp at h
  · have hbody : createInitialNodes data rand
        = mapWithIndex (placeNode data.nodes.length rand) 0 data.nodes := by
      unfold createInitialNodes
      rw [if_neg hE]
    refine ⟨?_, fun k => ?_, fun hnil => ?_, fun k nd h => ?_⟩
    · rw [hbody, mapWithIndex_length]
    · rw [hbody, mapWithIndex_getElem?]
      cases data.nodes[k]? <;> rfl
    · rw [hnil] at hE; simp [List.isEmpty] at hE
    · rw [hbody, mapWithIndex_getElem?] at h
      cases hnode : data.nodes[k]? with
      | none => rw [hnode] at h; simp at h
      | some node =>
          rw [hnode] at h
          simp only [Option.map_some', Option.some.injEq] at h
          have hk : k < data.nodes.length := by
            rw [List.getElem?_eq_some] at hnode; exact hnode.1
          rw [Nat.zero_add] at h
          subst h
          refine ⟨rfl, rfl, ?_, ?_⟩
          · exact cell_fraction_bounds (initCellWidth_nonneg _)
              (Nat.cast_nonneg _) (col_mul_cw_le _ k) (hr k).1 (hr k).2.1
              |>.imp (fun h1 => h1) (fun h2 => by
                refine le_trans h2 ?_
                rw [usableWidth, WIDTH]
                norm_num)
          · exact cell_fraction_bounds (initCellHeight_nonneg _)
              (Nat.cast_nonneg _) (row_mul_ch_le _ k hk) (hr k).2.2.1 (hr k).2.2.2
              |>.imp (fun h1 => h1) (fun h2 => by
                refine le_trans h2 ?_
                rw [usableHeight, HEIGHT]
                norm_num)

-- Concrete data for the C5 counterexample.

def exG1 : GraphNode := { id := .num 1, label := none, properties := [] }

def exG2 : GraphNode := { id := .num 2, label := none, properties := [] }

def exData5 : GraphResponse := ⟨[exG1, exG2], []⟩

/-- A jitter source that always draws 0 (a legal `Math.random()` value). -/
def zeroRand : ℕ → ℝ × ℝ := fun _ => (0, 0)

lemma initCols_two : initCols 2 = 2 := by
  unfold initCols
  have harg : ((2 : ℕ) : ℝ) * (usableWidth / usableHeight) = 464 / 127 := by
    rw [usableWidth, usableHeight, WIDTH, HEIGHT]
    norm_num
  rw [harg]
  have hceil : ⌈Real.sqrt (464 / 127)⌉₊ = 2 := by
    rw [Nat.ceil_eq_iff (by norm_num)]
    constructor
    · push_cast
      rw [show (1 : ℝ) = Real.sqrt 1 by simp]
      exact Real.sqrt_lt_sqrt (by norm_num) (by norm_num)
    · push_cast
      calc Real.sqrt (464 / 127) ≤ Real.sqrt 4 := Real.sqrt_le_sqrt (by norm_num)
      _ = 2 := by rw [show (4 : ℝ) = 2 ^ 2 by norm_num, Real.sqrt_sq (by norm_num)]
  rw [hceil]
  omega

lemma initCellWidth_two : initCellWidth 2 = 928 := by
  unfold initCellWidth
  rw [initCols_two, if_pos (by norm_num)]
  rw [show ((2 : ℕ) - 1 : ℕ) = 1 from rfl]
  rw [usableWidth, WIDTH]
  norm_num

/-- Counterexample to claim C5 as stated: with two nodes and a legal random
draw of 0, the first node is placed at `x = 16 - 0.1 * 928 = -76.8`,
outside `[16, WIDTH - 16]` (indeed outside the canvas). -/
theorem claim_C5_counterexample :
    ((0 : ℝ) ≤ 0 ∧ (0 : ℝ) < 1) ∧
    ((createInitialNodes exData5 zeroRand).getD 0 simA).x < 16 := by
  refine ⟨⟨le_refl 0, by norm_num⟩, ?_⟩
  have hbody : createInitialNodes exData5 zeroRand
      = mapWithIndex (placeNode 2 zeroRand) 0 exData5.nodes := by
    unfold createInitialNodes
    rw [if_neg (by rw [show exData5.nodes.isEmpty = false from rfl]; simp)]
    rfl
  rw [hbody, List.getD_eq_getElem?_getD, mapWithIndex_getElem?]
  rw [show exData5.nodes[0]? = some exG1 from rfl]
  simp only [Option.map_some', Option.getD_some]
  show (placeNode 2 zeroRand 0 exG1).x < 16
  unfold placeNode
  dsimp only
  rw [initCellWidth_two, initCols_two]
  norm_num [zeroRand]

theorem claim_C5_witness :
    (∀ i, 0 ≤ (zeroRand i).1 ∧ (zeroRand i).1 < 1 ∧
      0 ≤ (zeroRand i).2 ∧ (zeroRand i).2 < 1) ∧
    (createInitialNodes exData5 zeroRand).length = exData5.nodes.length ∧
    ((createInitialNodes exData5 zeroRand)[0]?).map SimNode.toGraphNode
      = exData5.nodes[0]? := by
  have hr : ∀ i, 0 ≤ (zeroRand i).1 ∧ (zeroRand i).1 < 1 ∧
      0 ≤ (zeroRand i).2 ∧ (zeroRand i).2 < 1 := by
    intro i
    refine ⟨le_refl 0, by norm_num [zeroRand], le_refl 0, by norm_num [zeroRand]⟩
  exact ⟨hr, (claim_C5_amended exData5 zeroRand hr).1,
    (claim_C5_amended exData5 zeroRand hr).2.1 0⟩

end Alfred
